import Mathlib

/-
Verification of the Live Coaching Session Engine (LiveSession component).

The definitions below are a shallow embedding of the component's code:
audio codec bridge (createPcmBlob / decodeAudioData), inbound audio
scheduling (the audio branch of onmessage), exercise-step progression
(handleNextStep), the updateFormFeedback tool handler, the microphone
gate (processor.onaudioprocess), the connect guard (connectToLive), the
effect cleanup, and the overlay callout logic (onPoseResults).

Numeric samples and timestamps are modelled as rationals: every
JavaScript operation involved (scaling by the power of two 32768,
truncation toward zero, 16-bit wraparound, division by 32768) is exact
on IEEE doubles in the ranges that occur, so the rational model computes
the very values the program computes.
-/

namespace AuraFit

/-- Truncation toward zero, as JavaScript ToIntegerOrInfinity performs on a
finite number when it is stored into an `Int16Array` element. -/
def jsTrunc (x : ℚ) : ℤ := if 0 ≤ x then ⌊x⌋ else ⌈x⌉

/-- One sample of `createPcmBlob`: `int16[i] = data[i] * 32768` — scale by
32768, then JavaScript ToInt16 (truncate toward zero, reduce modulo 2^16,
reinterpret values at or above 2^15 as negative). -/
def toInt16 (x : ℚ) : ℤ :=
  if 32768 ≤ jsTrunc (x * 32768) % 65536 then jsTrunc (x * 32768) % 65536 - 65536
  else jsTrunc (x * 32768) % 65536

/-- The little-endian unsigned byte pair that one stored 16-bit sample
contributes to the `Uint8Array` view of the `Int16Array` buffer in
`createPcmBlob`. -/
def int16ToBytes (v : ℤ) : List ℕ :=
  [(v % 65536).toNat % 256, (v % 65536).toNat / 256]

/-- Body of `createPcmBlob`: quantize each float sample to a 16-bit integer
and serialize the buffer little-endian. The base64 layer (`btoa` over the
byte string) is the platform's bijection on byte strings and is undone
exactly by `atob` at the start of `decodeAudioData`, so the wire content is
modelled as the byte list handed to `btoa`. -/
def createPcmBlob (data : List ℚ) : List ℕ :=
  (data.map toInt16).flatMap int16ToBytes

/-- Reinterpretation of an unsigned 16-bit value as signed, as reading an
element of the `Int16Array` view in `decodeAudioData` does. -/
def ofUInt16 (u : ℕ) : ℤ :=
  if u < 32768 then (u : ℤ) else (u : ℤ) - 65536

/-- The `new Int16Array(bytes.buffer)` view in `decodeAudioData`: consume the
byte list pairwise, little-endian. A buffer whose byte length is not a
multiple of 2 makes the `Int16Array` constructor throw a RangeError, which
the embedding returns as an error value. -/
def bytesToInt16s : List ℕ → Except String (List ℤ)
  | [] => Except.ok []
  | [_] => Except.error "byte length of Int16Array should be a multiple of 2"
  | lo :: hi :: rest => (bytesToInt16s rest).map fun l => ofUInt16 (lo + 256 * hi) :: l

/-- Body of `decodeAudioData`: turn wire bytes (after the platform's `atob`)
back into normalized samples, `float32[i] = dataInt16[i] / 32768.0`. -/
def decodeAudioData (bytes : List ℕ) : Except String (List ℚ) :=
  (bytesToInt16s bytes).map (List.map fun v : ℤ => (v : ℚ) / 32768)

/-! Inbound audio playback scheduling (the audio branch of `onmessage`). -/

/-- Scheduling of one decoded segment:
`startTime = max(ctx.currentTime, nextStartTimeRef.current)`, the source node
is started at `startTime`, and the cursor becomes `startTime + buffer.duration`.
Returns the scheduled start and the updated cursor. -/
def scheduleSegment (currentTime dur nextStartTime : ℚ) : ℚ × ℚ :=
  (max currentTime nextStartTime, max currentTime nextStartTime + dur)

/-- Process a sequence of inbound segments, each given as
(playback-clock value at arrival, duration), in arrival order, threading the
cursor exactly as the `onmessage` audio branch does. Returns the
(scheduled start, duration) of each segment. -/
def scheduleAllSegments (nextStartTime : ℚ) : List (ℚ × ℚ) → List (ℚ × ℚ)
  | [] => []
  | seg :: rest =>
    (max seg.1 nextStartTime, seg.2)
      :: scheduleAllSegments (max seg.1 nextStartTime + seg.2) rest

/-- The audio branch of `onmessage` at the wire level: decode the payload
bytes; a decoding failure rejects out of the handler before the scheduling
code runs, so the cursor is untouched and nothing is scheduled. On success
the segment (duration = sample count / 24000, the playback sample rate) is
scheduled. Returns the updated cursor and the scheduled (start, duration),
if any. -/
def handleAudioMessage (currentTime : ℚ) (payload : List ℕ) (nextStartTime : ℚ) :
    ℚ × Option (ℚ × ℚ) :=
  match decodeAudioData payload with
  | Except.error _ => (nextStartTime, none)
  | Except.ok samples =>
    ((scheduleSegment currentTime ((samples.length : ℚ) / 24000) nextStartTime).2,
      some ((scheduleSegment currentTime ((samples.length : ℚ) / 24000) nextStartTime).1,
        (samples.length : ℚ) / 24000))

/-! Exercise-step progression (`handleNextStep`). -/

/-- Messages `handleNextStep` sends to the live session. An `announce`
carries the name of the new current exercise (the `Next up: ...` text);
`workoutComplete` is the `Workout complete!` text; `toolResponse` is the
acknowledgment of the remote `nextExercise` invocation. -/
inductive SessionSend
| toolResponse (id : String)
| announce (exerciseName : String)
| workoutComplete
deriving DecidableEq

/-- Result of one `handleNextStep` call: the exercise index produced by the
state updater, whether `onExit` was invoked, and the messages sent. -/
structure StepResult where
  newStep : ℕ
  exitInvoked : Bool
  sends : List SessionSend
deriving DecidableEq

/-- Body of `handleNextStep`: `next = prev + 1`. On the remote path
(`functionCallId !== 'manual'`) a tool response is sent, followed by the
`Next up` announcement when `next` is in range or `Workout complete!`
otherwise; the manual path sends nothing (it only fires a haptic). When
`next >= plan.exercises.length`, `onExit()` is invoked and the updater
returns `prev`; otherwise it returns `next`. -/
def handleNextStep (exercises : List String) (functionCallId : String) (prev : ℕ) :
    StepResult :=
  let next := prev + 1
  let sends :=
    if functionCallId = "manual" then []
    else
      SessionSend.toolResponse functionCallId ::
        (if next < exercises.length then [SessionSend.announce (exercises.getD next "")]
         else [SessionSend.workoutComplete])
  if exercises.length ≤ next then ⟨prev, true, sends⟩
  else ⟨next, false, sends⟩

/-- Number of spoken announcements naming an exercise in a batch of sends. -/
def countAnnounce (sends : List SessionSend) : ℕ :=
  sends.countP fun s => match s with
    | SessionSend.announce _ => true
    | _ => false

/-- Run a sequence of advance triggers (their `functionCallId`s) through
`handleNextStep` in order, threading the exercise index; processing stops
when exit is invoked, since the component unmounts. Returns the final index,
whether exit was invoked, and all sends. -/
def runAdvances (exercises : List String) (start : ℕ) :
    List String → ℕ × Bool × List SessionSend
  | [] => (start, false, [])
  | fcId :: rest =>
    let r := handleNextStep exercises fcId start
    if r.exitInvoked then (r.newStep, true, r.sends)
    else
      let rr := runAdvances exercises r.newStep rest
      (rr.1, rr.2.1, r.sends ++ rr.2.2)

/-! Coaching overlay state and the `updateFormFeedback` handler. -/

/-- CoachingOverlayState as held at runtime. The inbound handler writes the
remote-supplied argument strings straight into the record (`fc.args as any`),
so the fields are modelled as raw strings rather than as the declared
enums. -/
structure OverlayState where
  status : String
  feedback : String
  focusArea : String
  lastUpdated : ℕ
deriving DecidableEq

/-- The initial overlay state installed at mount. -/
def initialOverlayState : OverlayState :=
  ⟨"scanning", "Aligning body...", "general", 0⟩

/-- The `status` values enumerated in the `updateFormFeedback` tool
declaration. -/
def statusEnumValues : List String := ["correct", "warning", "incorrect"]

/-- The `focusArea` values enumerated in the `updateFormFeedback` tool
declaration. -/
def focusAreaEnumValues : List String :=
  ["head", "shoulders", "torso", "hips", "legs", "general"]

/-- The values of the `FormStatus` type (the declared enum plus the initial
`scanning` state). -/
def formStatusValues : List String := ["correct", "warning", "incorrect", "scanning"]

/-- Arguments carried by an `updateFormFeedback` invocation, as the raw
strings supplied by the remote side. -/
structure FormFeedbackArgs where
  status : String
  feedback : String
  focusArea : String
deriving DecidableEq

/-- The `updateFormFeedback` branch of `onmessage`: the argument fields are
written into the overlay state unconditionally — no validation against the
declared enumerations happens before the write. -/
def applyUpdateFormFeedback (args : FormFeedbackArgs) (now : ℕ)
    (_previous : OverlayState) : OverlayState :=
  ⟨args.status, args.feedback, args.focusArea, now⟩

/-! Overlay callout rendering (`onPoseResults`). -/

/-- A normalized pose landmark (coordinates in [0, 1] of frame size). -/
structure Landmark where
  x : ℚ
  y : ℚ
deriving DecidableEq

/-- The focus-area → landmark selection in `onPoseResults`. Landmark
indices, per the source comment: 0 is the nose, 11 the left shoulder,
23 the left hip; all other focus areas select no landmark. -/
def focusAreaLandmark (focusArea : String) (landmarks : List Landmark) :
    Option Landmark :=
  if focusArea = "head" then landmarks[0]?
  else if focusArea = "shoulders" then landmarks[11]?
  else if focusArea = "hips" then landmarks[23]?
  else none

/-- A drawn feedback callout: the anchor point (landmark scaled to canvas
size, where the alert disc and the leader line start) and the floating
feedback text. -/
structure Callout where
  anchorX : ℚ
  anchorY : ℚ
  text : String
deriving DecidableEq

/-- The callout branch of `onPoseResults`: requires pose landmarks to be
present and the status to be neither `scanning` nor `correct`; then, if the
focus area selects a landmark, a callout is drawn anchored at the landmark
scaled by the canvas dimensions, showing the feedback text (floating label
joined by a leader line). -/
def renderCallout (st : OverlayState) (poseLandmarks : Option (List Landmark))
    (w h : ℚ) : Option Callout :=
  match poseLandmarks with
  | none => none
  | some landmarks =>
    if st.status ≠ "scanning" ∧ st.status ≠ "correct" then
      match focusAreaLandmark st.focusArea landmarks with
      | some l => some ⟨l.x * w, l.y * h, st.feedback⟩
      | none => none
    else none

/-! Microphone gating (`processor.onaudioprocess`). -/

/-- Body of `processor.onaudioprocess`: the chunk is dropped when the
microphone is muted or no session promise exists; otherwise it is encoded
with `createPcmBlob` and sent as realtime input. -/
def onAudioProcess (micActive sessionOpen : Bool) (chunk : List ℚ) :
    Option (List ℕ) :=
  if !micActive || !sessionOpen then none
  else some (createPcmBlob chunk)

/-! Connection state (`connectToLive`). -/

/-- The session connection states. -/
inductive ConnectionStatus
| disconnected
| connecting
| connected
deriving DecidableEq

/-- The guard opening `connectToLive`: return immediately when the status is
already connected or connecting; otherwise set the status to connecting and
proceed to open the channel. Returns the resulting status and whether a
channel open is initiated. -/
def connectToLive (s : ConnectionStatus) : ConnectionStatus × Bool :=
  if s = ConnectionStatus.connected ∨ s = ConnectionStatus.connecting then (s, false)
  else (ConnectionStatus.connecting, true)

/-! Microphone-toggle lifecycle. The `onaudioprocess` handler closes over
the `micActive` state value of the render in which `connectToLive` built the
capture pipeline; `micActive` is in `connectToLive`'s dependency list and
the camera effect depends on `connectToLive`, so a toggle re-runs that
effect: its cleanup closes both audio contexts (killing the script
processor), and the re-run calls `connectToLive` again, which returns
immediately unless the status is disconnected. -/

/-- The microphone-relevant session state: the connection status; whether
the capture audio context and its script processor are alive; the
`micActive` value the `onaudioprocess` closure captured when the pipeline
was built; and the current `micActive` state value shown by the mic button.
The session promise is set at connect and never cleared, so it is present
throughout a session. -/
structure MicSessionState where
  connection : ConnectionStatus
  captureAlive : Bool
  closureMic : Bool
  micActive : Bool
deriving DecidableEq

/-- An event relevant to outbound audio: the user pressing the mic button
(`setMicActive(!micActive)`), or the hardware delivering a captured audio
chunk to the script processor. -/
inductive SessionEvent
| toggleMic
| capture (chunk : List ℚ)

/-- The state after mount and a successful connect: connected, with the
capture pipeline built by `connectToLive` and its handler closure holding
the initial `micActive = true`. -/
def initialMicSession : MicSessionState :=
  ⟨ConnectionStatus.connected, true, true, true⟩

/-- One event step. A mic toggle flips `micActive`; the camera effect then
re-runs: its cleanup closes the audio contexts (the pipeline dies), and the
effect body calls `connectToLive`, which early-returns while the status is
connected or connecting — the pipeline is not rebuilt. Only from
disconnected would `connectToLive` rebuild the pipeline, with the handler
closing over the now-current mic flag. A captured chunk is delivered only
while the pipeline is alive, and the handler reads the mic flag captured in
its closure, not the current state value. -/
def stepSession (s : MicSessionState) :
    SessionEvent → MicSessionState × Option (List ℕ)
  | SessionEvent.toggleMic =>
    if s.connection = ConnectionStatus.connected
        ∨ s.connection = ConnectionStatus.connecting then
      (⟨s.connection, false, s.closureMic, !s.micActive⟩, none)
    else
      (⟨ConnectionStatus.connecting, true, !s.micActive, !s.micActive⟩, none)
  | SessionEvent.capture c =>
    if s.captureAlive then (s, onAudioProcess s.closureMic true c)
    else (s, none)

/-- The outbound blobs transmitted over a sequence of session events. -/
def runSession (s : MicSessionState) : List SessionEvent → List (List ℕ)
  | [] => []
  | e :: rest =>
    match stepSession s e with
    | (s2, some blob) => blob :: runSession s2 rest
    | (s2, none) => runSession s2 rest

/-! Session teardown (the `useEffect` cleanup of the camera effect). -/

/-- The teardown steps a full exit could perform. -/
inductive TeardownAction
| stopMediaTracks
| closePlaybackContext
| closeCaptureContext
| closePoseTracker
| closeRemoteSession
deriving DecidableEq

/-- Which resources the cleanup's null guards see, plus whether the remote
session is open (the cleanup neither consults nor touches the session). -/
structure SessionResources where
  videoStream : Bool
  playbackContext : Bool
  captureContext : Bool
  poseTracker : Bool
  remoteSessionOpen : Bool
deriving DecidableEq

/-- The `useEffect` cleanup: stop the media stream tracks, close the
playback audio context, close the capture audio context, close the pose
instance — each step guarded only by a null check on its ref. The refs are
not cleared and the remote session is not closed. Returns the emitted
actions and the resource record as the cleanup leaves it. -/
def cleanup (r : SessionResources) : List TeardownAction × SessionResources :=
  ((if r.videoStream then [TeardownAction.stopMediaTracks] else []) ++
    (if r.playbackContext then [TeardownAction.closePlaybackContext] else []) ++
    (if r.captureContext then [TeardownAction.closeCaptureContext] else []) ++
    (if r.poseTracker then [TeardownAction.closePoseTracker] else []), r)

/-! Helper lemmas about the quantizer. -/

theorem jsTrunc_sub_lt (y : ℚ) : |y - (jsTrunc y : ℚ)| < 1 := by
  unfold jsTrunc
  split
  · rename_i h
    rw [abs_of_nonneg (by linarith [Int.floor_le y])]
    have := Int.lt_floor_add_one y
    push_cast at this ⊢
    linarith
  · rename_i h
    rw [abs_of_nonpos (by linarith [Int.le_ceil y])]
    have := Int.ceil_lt_add_one y
    push_cast at this ⊢
    linarith

theorem jsTrunc_range (y : ℚ) (h1 : -32768 ≤ y) (h2 : y < 32768) :
    -32768 ≤ jsTrunc y ∧ jsTrunc y ≤ 32767 := by
  unfold jsTrunc
  split
  · rename_i h
    have hlow : (0 : ℤ) ≤ ⌊y⌋ := Int.floor_nonneg.mpr h
    have hup : (⌊y⌋ : ℚ) < 32768 := lt_of_le_of_lt (Int.floor_le y) h2
    have hup2 : ⌊y⌋ < (32768 : ℤ) := by exact_mod_cast hup
    omega
  · rename_i h
    have hup : ⌈y⌉ ≤ (0 : ℤ) := Int.ceil_le.mpr (by exact_mod_cast le_of_not_le h)
    have hlow : (-32768 : ℚ) ≤ (⌈y⌉ : ℚ) := le_trans h1 (Int.le_ceil y)
    have hlow2 : (-32768 : ℤ) ≤ ⌈y⌉ := by exact_mod_cast hlow
    omega

theorem toInt16_eq_jsTrunc (x : ℚ)
    (hn1 : -32768 ≤ jsTrunc (x * 32768)) (hn2 : jsTrunc (x * 32768) ≤ 32767) :
    toInt16 x = jsTrunc (x * 32768) := by
  unfold toInt16
  split <;> omega

theorem toInt16_range (x : ℚ) : -32768 ≤ toInt16 x ∧ toInt16 x ≤ 32767 := by
  unfold toInt16
  split <;> omega

theorem ofUInt16_pair (v : ℤ) (h1 : -32768 ≤ v) (h2 : v ≤ 32767) :
    ofUInt16 ((v % 65536).toNat % 256 + 256 * ((v % 65536).toNat / 256)) = v := by
  unfold ofUInt16
  rw [Nat.mod_add_div]
  split <;> omega

theorem createPcmBlob_cons (x : ℚ) (xs : List ℚ) :
    createPcmBlob (x :: xs) = int16ToBytes (toInt16 x) ++ createPcmBlob xs := by
  simp [createPcmBlob]

theorem bytesToInt16s_createPcmBlob (data : List ℚ) :
    bytesToInt16s (createPcmBlob data) = Except.ok (data.map toInt16) := by
  induction data with
  | nil => rfl
  | cons x xs ih =>
    have hr := toInt16_range x
    have hhead := ofUInt16_pair (toInt16 x) hr.1 hr.2
    rw [createPcmBlob_cons, int16ToBytes, List.cons_append, List.cons_append,
      List.nil_append]
    simp only [bytesToInt16s, ih, Except.map, hhead, List.map_cons]

theorem decode_encode (data : List ℚ) :
    decodeAudioData (createPcmBlob data)
      = Except.ok (data.map fun x => ((toInt16 x : ℚ) / 32768)) := by
  simp only [decodeAudioData, bytesToInt16s_createPcmBlob, Except.map, List.map_map]
  rfl

theorem sample_roundtrip_bound (x : ℚ) (h1 : -1 ≤ x) (h2 : x < 1) :
    |x - (toInt16 x : ℚ) / 32768| ≤ 1 / 32768 := by
  have hx1 : (-32768 : ℚ) ≤ x * 32768 := by nlinarith
  have hx2 : x * 32768 < 32768 := by nlinarith
  have hn := jsTrunc_range (x * 32768) hx1 hx2
  rw [toInt16_eq_jsTrunc x hn.1 hn.2]
  have habs := jsTrunc_sub_lt (x * 32768)
  rw [show x - (jsTrunc (x * 32768) : ℚ) / 32768
        = (x * 32768 - (jsTrunc (x * 32768) : ℚ)) / 32768 by ring]
  rw [abs_div, abs_of_pos (by norm_num : (0 : ℚ) < 32768)]
  gcongr


theorem scheduleAllSegments_head_ge (st : ℚ) (segs : List (ℚ × ℚ)) (p : ℚ × ℚ)
    (h : (scheduleAllSegments st segs).head? = some p) : st ≤ p.1 := by
  cases segs with
  | nil => simp [scheduleAllSegments] at h
  | cons seg rest =>
    simp only [scheduleAllSegments, List.head?_cons, Option.some.injEq] at h
    rw [← h]
    exact le_max_right _ _

theorem scheduleAllSegments_chain (st : ℚ) (segs : List (ℚ × ℚ)) :
    List.Chain' (fun a b : ℚ × ℚ => a.1 + a.2 ≤ b.1) (scheduleAllSegments st segs) := by
  induction segs generalizing st with
  | nil => simp [scheduleAllSegments]
  | cons seg rest ih =>
    rw [scheduleAllSegments]
    rcases hr : scheduleAllSegments (max seg.1 st + seg.2) rest with _ | ⟨q, qs⟩
    · simp
    · refine List.Chain'.cons ?_ (hr ▸ ih (max seg.1 st + seg.2))
      have := scheduleAllSegments_head_ge (max seg.1 st + seg.2) rest q (by rw [hr]; rfl)
      exact this

theorem scheduleAllSegments_mono (st : ℚ) (segs : List (ℚ × ℚ))
    (hd : ∀ s ∈ segs, 0 ≤ s.2) :
    List.Chain' (fun a b : ℚ × ℚ => a.1 ≤ b.1) (scheduleAllSegments st segs) := by
  induction segs generalizing st with
  | nil => simp [scheduleAllSegments]
  | cons seg rest ih =>
    rw [scheduleAllSegments]
    have hrest : ∀ s ∈ rest, 0 ≤ s.2 := fun s hs => hd s (List.mem_cons_of_mem _ hs)
    rcases hr : scheduleAllSegments (max seg.1 st + seg.2) rest with _ | ⟨q, qs⟩
    · simp
    · refine List.Chain'.cons ?_ (hr ▸ ih _ hrest)
      have hq := scheduleAllSegments_head_ge (max seg.1 st + seg.2) rest q (by rw [hr]; rfl)
      have h2 : 0 ≤ seg.2 := hd seg (List.mem_cons_self _ _)
      dsimp only
      linarith

theorem bytesToInt16s_error_of_odd (bs : List ℕ) (h : bs.length % 2 = 1) :
    bytesToInt16s bs = Except.error "byte length of Int16Array should be a multiple of 2" := by
  induction bs using bytesToInt16s.induct with
  | case1 => simp at h
  | case2 b => rfl
  | case3 lo hi rest ih =>
    have hrest : rest.length % 2 = 1 := by
      simp only [List.length_cons] at h
      omega
    rw [bytesToInt16s, ih hrest]
    rfl

/-! Claim theorems for the audio codec and playback scheduling. -/

/-- C1 (amended): encoding a sequence of in-range float samples with
`createPcmBlob` and decoding it back with `decodeAudioData` reproduces every
sample to within one quantization step (at most 1/32768 per sample),
provided each sample lies in [-1, 1). The sample value 1 itself is excluded:
`1 * 32768 = 32768` wraps around to -32768 in the ToInt16 conversion, so
that sample decodes to -1, an error of 2. -/
theorem audio_roundtrip_within_one_step (data : List ℚ)
    (h : ∀ x ∈ data, -1 ≤ x ∧ x < 1) :
    ∃ decoded, decodeAudioData (createPcmBlob data) = Except.ok decoded
      ∧ List.Forall₂ (fun x y => |x - y| ≤ 1 / 32768) data decoded := by
  refine ⟨_, decode_encode data, ?_⟩
  rw [List.forall₂_map_right_iff, List.forall₂_same]
  exact fun x hx => sample_roundtrip_bound x (h x hx).1 (h x hx).2

/-- Witness for C1: the concrete sample sequence [1/2] satisfies the range
hypothesis and round-trips within one quantization step. -/
theorem audio_roundtrip_within_one_step_witness :
    ((-1 : ℚ) ≤ 1 / 2 ∧ (1 : ℚ) / 2 < 1)
    ∧ ∃ decoded, decodeAudioData (createPcmBlob [(1 : ℚ) / 2]) = Except.ok decoded
        ∧ List.Forall₂ (fun x y => |x - y| ≤ 1 / 32768) [(1 : ℚ) / 2] decoded :=
  ⟨by norm_num, audio_roundtrip_within_one_step [(1 : ℚ) / 2]
    (by intro x hx; rw [List.mem_singleton] at hx; subst hx; norm_num)⟩

/-- Counterexample to C1 as stated: the in-range sample 1 encodes to the
wrapped value -32768 and decodes to -1, an error of 2, far above one
quantization step. -/
theorem audio_roundtrip_fails_at_one :
    decodeAudioData (createPcmBlob [(1 : ℚ)]) = Except.ok [(-1 : ℚ)]
    ∧ ¬ |(1 : ℚ) - (-1 : ℚ)| ≤ 1 / 32768 := by
  constructor
  · have h1 : jsTrunc ((1 : ℚ) * 32768) = 32768 := by
      rw [show ((1 : ℚ) * 32768) = ((32768 : ℤ) : ℚ) by norm_num]
      unfold jsTrunc
      rw [if_pos (by norm_num), Int.floor_intCast]
    have h2 : toInt16 (1 : ℚ) = -32768 := by
      unfold toInt16
      rw [h1]
      decide
    have h3 : createPcmBlob [(1 : ℚ)] = [0, 128] := by
      rw [show createPcmBlob [(1 : ℚ)]
            = int16ToBytes (toInt16 1) ++ createPcmBlob ([] : List ℚ) from
          createPcmBlob_cons 1 []]
      rw [h2]
      decide
    rw [h3]
    have h4 : bytesToInt16s [0, 128] = Except.ok [(-32768 : ℤ)] := by
      rw [show bytesToInt16s [0, 128]
            = (bytesToInt16s []).map fun l => ofUInt16 (0 + 256 * 128) :: l from rfl]
      have h5 : ofUInt16 (0 + 256 * 128) = -32768 := by decide
      rw [h5]
      rfl
    rw [decodeAudioData, h4]
    simp only [Except.map, List.map_cons, List.map_nil]
    norm_num
  · norm_num

/-- C2: for any inbound segment sequence (arrival playback-clock values and
nonnegative durations), the scheduled start of each segment is
`max(current playback time, cursor)`, the cursor advances by exactly the
segment duration, and consequently the scheduled starts are monotonically
non-decreasing, each segment starting at or after the end of its
predecessor — no two segments overlap, regardless of the arrival clock
values. -/
theorem playback_schedule_no_overlap (st : ℚ) (segs : List (ℚ × ℚ))
    (hd : ∀ s ∈ segs, 0 ≤ s.2) :
    (∀ c d nst : ℚ, scheduleSegment c d nst = (max c nst, max c nst + d))
    ∧ List.Chain' (fun a b : ℚ × ℚ => a.1 + a.2 ≤ b.1) (scheduleAllSegments st segs)
    ∧ List.Chain' (· ≤ ·) ((scheduleAllSegments st segs).map Prod.fst) := by
  refine ⟨fun c d nst => rfl, scheduleAllSegments_chain st segs, ?_⟩
  rw [List.chain'_map]
  exact scheduleAllSegments_mono st segs hd

/-- Witness for C2: a concrete three-segment arrival trace (the third
segment arrives while earlier audio is still pending) schedules without
overlap. -/
theorem playback_schedule_no_overlap_witness :
    (∀ s ∈ ([(0, 1), (5, 2), (3, 4)] : List (ℚ × ℚ)), 0 ≤ s.2)
    ∧ List.Chain' (fun a b : ℚ × ℚ => a.1 + a.2 ≤ b.1)
        (scheduleAllSegments 0 [(0, 1), (5, 2), (3, 4)]) :=
  ⟨by intro s hs; fin_cases hs <;> norm_num,
    (playback_schedule_no_overlap 0 [(0, 1), (5, 2), (3, 4)]
      (by intro s hs; fin_cases hs <;> norm_num)).2.1⟩

/-- C7: a corrupt inbound audio payload — a byte sequence that is not a
whole number of 16-bit samples — makes decoding fail, the handler rejects
before touching the scheduling state, the segment is skipped, and the
playback cursor is unchanged; moreover the handler never decreases the
cursor on any payload, so the cursor's monotone invariant is preserved. -/
theorem corrupt_audio_payload_skipped (payload : List ℕ)
    (hodd : payload.length % 2 = 1) :
    (∀ currentTime nextStartTime : ℚ,
        handleAudioMessage currentTime payload nextStartTime = (nextStartTime, none))
    ∧ ∀ (bs : List ℕ) (c st : ℚ), st ≤ (handleAudioMessage c bs st).1 := by
  constructor
  · intro c st
    have herr : decodeAudioData payload
        = Except.error "byte length of Int16Array should be a multiple of 2" := by
      rw [decodeAudioData, bytesToInt16s_error_of_odd payload hodd]
      rfl
    rw [handleAudioMessage, herr]
  · intro bs c st
    rw [handleAudioMessage]
    rcases decodeAudioData bs with _ | samples
    · exact le_refl st
    · dsimp only [scheduleSegment]
      have h1 : st ≤ max c st := le_max_right c st
      have h2 : (0 : ℚ) ≤ (samples.length : ℚ) / 24000 := by positivity
      linarith

/-- Witness for C7: the concrete three-byte payload [0, 0, 0] has odd
length, is skipped, and leaves a cursor of 5 unchanged. -/
theorem corrupt_audio_payload_skipped_witness :
    ([0, 0, 0] : List ℕ).length % 2 = 1
    ∧ handleAudioMessage 7 [0, 0, 0] 5 = (5, none) :=
  ⟨by decide, (corrupt_audio_payload_skipped [0, 0, 0] (by decide)).1 7 5⟩

/-! Claim theorems for step progression, overlay, microphone gating,
connection and teardown. -/

/-- C3 (amended): a remote advance with `i + 1 < n` yields index `i + 1` and
sends exactly one spoken announcement naming the new current exercise; a
manual advance with `i + 1 < n` also yields `i + 1` but sends no
announcement (the announcement is made only on the remote tool path); an
advance with `i + 1 >= n` invokes exit, leaves the index unchanged and sends
zero announcements (on the remote path a `Workout complete!` text, naming no
exercise, is still sent). For a 3-exercise plan, three remote advances
produce exit after the third and exactly 2 announcement sends in total. -/
theorem exercise_progression (exercises : List String) (prev : ℕ) (fcId : String) :
    (fcId ≠ "manual" → prev + 1 < exercises.length →
      (handleNextStep exercises fcId prev).newStep = prev + 1
      ∧ (handleNextStep exercises fcId prev).exitInvoked = false
      ∧ countAnnounce (handleNextStep exercises fcId prev).sends = 1
      ∧ SessionSend.announce (exercises.getD (prev + 1) "")
          ∈ (handleNextStep exercises fcId prev).sends)
    ∧ (prev + 1 < exercises.length →
      (handleNextStep exercises "manual" prev).newStep = prev + 1
      ∧ countAnnounce (handleNextStep exercises "manual" prev).sends = 0)
    ∧ (exercises.length ≤ prev + 1 →
      (handleNextStep exercises fcId prev).exitInvoked = true
      ∧ (handleNextStep exercises fcId prev).newStep = prev
      ∧ countAnnounce (handleNextStep exercises fcId prev).sends = 0)
    ∧ (runAdvances ["a", "b", "c"] 0 ["id1", "id2", "id3"]).2.1 = true
    ∧ countAnnounce (runAdvances ["a", "b", "c"] 0 ["id1", "id2", "id3"]).2.2 = 2 := by
  refine ⟨?_, ?_, ?_, by decide, by decide⟩
  · intro hne hlt
    have hnle : ¬ exercises.length ≤ prev + 1 := Nat.not_le.mpr hlt
    simp [handleNextStep, hne, hnle, hlt, countAnnounce]
  · intro hlt
    have hnle : ¬ exercises.length ≤ prev + 1 := Nat.not_le.mpr hlt
    simp [handleNextStep, hnle, countAnnounce]
  · intro hge
    have hnlt : ¬ prev + 1 < exercises.length := Nat.not_lt.mpr hge
    by_cases hm : fcId = "manual" <;>
      simp [handleNextStep, hge, hnlt, hm, countAnnounce]

/-- Witness for C3: on a 3-exercise plan, a remote advance (id distinct from
the manual marker) from index 0 yields index 1 with exactly one
announcement. -/
theorem exercise_progression_witness :
    (("r7" : String) ≠ "manual" ∧ 0 + 1 < (["a", "b", "c"] : List String).length)
    ∧ (handleNextStep ["a", "b", "c"] "r7" 0).newStep = 0 + 1
    ∧ countAnnounce (handleNextStep ["a", "b", "c"] "r7" 0).sends = 1 :=
  ⟨⟨by decide, by decide⟩,
    ((exercise_progression ["a", "b", "c"] 0 "r7").1 (by decide) (by decide)).1,
    ((exercise_progression ["a", "b", "c"] 0 "r7").1 (by decide) (by decide)).2.2.1⟩

/-- Counterexample to C3 as stated: a manual advance on a 3-exercise plan
from index 0 yields index 1 but sends zero announcements, not exactly one —
the manual path never notifies the session. -/
theorem exercise_progression_manual_counterexample :
    (handleNextStep ["a", "b", "c"] "manual" 0).newStep = 1
    ∧ countAnnounce (handleNextStep ["a", "b", "c"] "manual" 0).sends = 0
    ∧ (handleNextStep ["a", "b", "c"] "manual" 0).exitInvoked = false := by
  decide

/-- C10: for a non-empty plan the exercise index stays a valid index: from
any in-range index, `handleNextStep` yields an in-range index, and advancing
from the last index invokes exit while leaving the index unchanged at
`length - 1` rather than letting it reach `length`. -/
theorem exercise_index_stays_in_range (exercises : List String) (fcId : String)
    (prev : ℕ) (h : prev < exercises.length) :
    (handleNextStep exercises fcId prev).newStep < exercises.length
    ∧ (prev + 1 = exercises.length →
        (handleNextStep exercises fcId prev).newStep = prev
        ∧ (handleNextStep exercises fcId prev).exitInvoked = true) := by
  unfold handleNextStep
  dsimp only
  split
  · exact ⟨h, fun _ => ⟨rfl, rfl⟩⟩
  · rename_i hlt
    exact ⟨Nat.lt_of_not_le hlt, fun heq => absurd (le_of_eq heq.symm) hlt⟩

/-- Witness for C10: on a 2-exercise plan, advancing from the last index 1
keeps the index at 1 and invokes exit. -/
theorem exercise_index_stays_in_range_witness :
    1 < (["a", "b"] : List String).length
    ∧ ((handleNextStep ["a", "b"] "manual" 1).newStep
          < (["a", "b"] : List String).length
        ∧ (1 + 1 = (["a", "b"] : List String).length →
            (handleNextStep ["a", "b"] "manual" 1).newStep = 1
            ∧ (handleNextStep ["a", "b"] "manual" 1).exitInvoked = true)) :=
  ⟨by decide, exercise_index_stays_in_range ["a", "b"] "manual" 1 (by decide)⟩

/-- C4 evidence: the `updateFormFeedback` handler applies out-of-enum
argument values to the overlay state unchecked — the invocation with
status "bogus" and focusArea "nowhere" is not rejected, and the overlay
state is corrupted to hold values outside the declared enumerations. -/
theorem updateFormFeedback_no_validation :
    applyUpdateFormFeedback ⟨"bogus", "??", "nowhere"⟩ 1 initialOverlayState
        = ⟨"bogus", "??", "nowhere", 1⟩
    ∧ ¬ ("bogus" ∈ statusEnumValues)
    ∧ ¬ ("nowhere" ∈ focusAreaEnumValues)
    ∧ applyUpdateFormFeedback ⟨"bogus", "??", "nowhere"⟩ 1 initialOverlayState
        ≠ initialOverlayState := by
  decide

/-- C5 evidence: before any mic toggle, a captured chunk is encoded with
`createPcmBlob` and transmitted; but toggling the microphone off and back
on mid-session kills outbound audio for good — each toggle re-runs the
camera effect, whose cleanup closes the capture audio context, and the
re-run's `connectToLive` returns early because the status is still
connected, so the pipeline is never rebuilt: after the off/on toggle pair
the mic flag is enabled again yet the pipeline is dead, and the next
captured chunk produces no transmission. Re-enabling does not resume
transmission on the next captured chunk, contrary to the claim. -/
theorem mic_toggle_does_not_resume :
    runSession initialMicSession [SessionEvent.capture [0]] = [createPcmBlob [0]]
    ∧ runSession initialMicSession
        [SessionEvent.toggleMic, SessionEvent.toggleMic, SessionEvent.capture [0]]
      = []
    ∧ (stepSession (stepSession initialMicSession SessionEvent.toggleMic).1
          SessionEvent.toggleMic).1.micActive = true
    ∧ (stepSession (stepSession initialMicSession SessionEvent.toggleMic).1
          SessionEvent.toggleMic).1.captureAlive = false :=
  ⟨rfl, rfl, rfl, rfl⟩

/-- C6 (amended): exit tears down in this order — stop the media device
tracks, close the playback audio context, close the capture audio context,
stop the pose tracker — skipping any resource that is absent, so the cleanup
is safe to invoke from any connection state including mid-connecting (where
some refs are still null); the remote session is never closed by the
cleanup, even when open; and the cleanup does not clear the resource refs,
so a second invocation emits exactly the same close calls again rather than
being guarded. -/
theorem teardown_order (r : SessionResources) :
    (cleanup r).1.Sublist
        [TeardownAction.stopMediaTracks, TeardownAction.closePlaybackContext,
          TeardownAction.closeCaptureContext, TeardownAction.closePoseTracker]
    ∧ TeardownAction.closeRemoteSession ∉ (cleanup r).1
    ∧ (cleanup r).2 = r
    ∧ (cleanup (cleanup r).2).1 = (cleanup r).1 := by
  rcases r with ⟨v, p, c, pt, s⟩
  cases v <;> cases p <;> cases c <;> cases pt <;> cases s <;>
    exact ⟨by decide, by decide, rfl, rfl⟩

/-- Counterexample to C6 as stated: with every resource live and the remote
session open, the cleanup emits the track stop, the two context closes and
the pose stop — but no remote-session close, although the claim requires
one when the session is open. -/
theorem teardown_session_not_closed :
    (cleanup ⟨true, true, true, true, true⟩).1
        = [TeardownAction.stopMediaTracks, TeardownAction.closePlaybackContext,
            TeardownAction.closeCaptureContext, TeardownAction.closePoseTracker]
    ∧ TeardownAction.closeRemoteSession ∉ (cleanup ⟨true, true, true, true, true⟩).1 := by
  decide

/-- C8: `connectToLive` is idempotent — invoked while connected or
connecting it neither changes the status nor opens a new channel; invoked
from disconnected it transitions the status to connecting and opens the
channel. -/
theorem connect_idempotent :
    connectToLive ConnectionStatus.connected = (ConnectionStatus.connected, false)
    ∧ connectToLive ConnectionStatus.connecting = (ConnectionStatus.connecting, false)
    ∧ connectToLive ConnectionStatus.disconnected = (ConnectionStatus.connecting, true) := by
  decide

/-- C9: at a render tick with pose landmarks present and a well-formed
status, a callout is drawn iff the status is warning or incorrect and the
focus area selects a landmark (head → nose, shoulders → left shoulder,
hips → left hip); the unmapped focus areas torso, legs and general draw no
callout; and a drawn callout is anchored at the selected landmark scaled to
the canvas and carries the feedback text. -/
theorem overlay_callout_iff (st : OverlayState) (landmarks : List Landmark)
    (w h : ℚ) (hstatus : st.status ∈ formStatusValues) :
    ((renderCallout st (some landmarks) w h).isSome
        ↔ ((st.status = "warning" ∨ st.status = "incorrect")
            ∧ (focusAreaLandmark st.focusArea landmarks).isSome))
    ∧ (st.focusArea = "torso" ∨ st.focusArea = "legs" ∨ st.focusArea = "general" →
        renderCallout st (some landmarks) w h = none)
    ∧ ∀ l, focusAreaLandmark st.focusArea landmarks = some l →
        (st.status = "warning" ∨ st.status = "incorrect") →
        renderCallout st (some landmarks) w h = some ⟨l.x * w, l.y * h, st.feedback⟩ := by
  rcases st with ⟨status, feedback, focusArea, lu⟩
  simp only [formStatusValues, List.mem_cons, List.not_mem_nil, or_false] at hstatus
  refine ⟨?_, ?_, ?_⟩
  · rcases hstatus with h | h | h | h <;> subst h <;>
      rcases hf : focusAreaLandmark focusArea landmarks with _ | l <;>
      simp [renderCallout, hf]
  · intro hfa
    have hnone : focusAreaLandmark focusArea landmarks = none := by
      rcases hfa with h | h | h <;> subst h <;> rfl
    rcases hstatus with h | h | h | h <;> subst h <;> simp [renderCallout, hnone]
  · intro l hl hwi
    have hcond : status ≠ "scanning" ∧ status ≠ "correct" := by
      rcases hwi with h | h <;> subst h <;> exact ⟨by decide, by decide⟩
    simp [renderCallout, hcond.1, hcond.2, hl]

/-- Witness for C9: status warning with focus area head and a single
landmark draws the callout anchored at that landmark. -/
theorem overlay_callout_iff_witness :
    (("warning" : String) ∈ formStatusValues)
    ∧ renderCallout ⟨"warning", "Straighten Back", "head", 0⟩
        (some [⟨1/2, 1/4⟩]) 100 200
      = some ⟨(1/2 : ℚ) * 100, (1/4 : ℚ) * 200, "Straighten Back"⟩ :=
  ⟨by decide,
    (overlay_callout_iff ⟨"warning", "Straighten Back", "head", 0⟩ [⟨1/2, 1/4⟩]
        100 200 (by decide)).2.2 ⟨1/2, 1/4⟩ rfl (Or.inl rfl)⟩

end AuraFit
